import Mathlib

/-!
# Verification of the investment allocation / order-calculation engine

This development is a shallow embedding, over `ℚ`, of the core of
`src/investment_manager.py` (class `InvestmentManager`): target-allocation
computation, reserved-cash computation, order calculation, the market-price
cache, the pending-order retry passes, and the orchestration functions
`handle_excess_cash_investment` and `rebalance_portfolio`.

Modelling conventions:
* Python `float` values are modelled as rationals (`ℚ`); the floating-point
  rounding itself is out of scope ("within floating-point tolerance").
* Python dicts are modelled as association lists (`List (String × α)`) with
  insertion-order iteration and overwrite-in-place semantics (`alist_upsert`).
* The stateful market-price lookup `self._get_market_price(contract)` is
  modelled by an explicit state-passing price function
  `gp : σ → Contract → ℚ × σ`; for theorems about the cache itself, `σ` is
  instantiated with the `market_data_cache` association list and `gp` with
  `get_market_price`.
* Code paths that raise Python exceptions are modelled with `Except PyError`.
* Logging, CSV writing and the ibapi order objects are I/O / display only and
  are not modelled; fields of the order dicts that no code path reads back
  (`order_type`, `current_value`, `exchange` on pending orders, and the
  display-only fields of position dicts) are likewise omitted.
-/

/-- Python exceptions that the modelled code can raise. -/
inductive PyError where
  /-- `AttributeError`: `self._generate_order_sheet` (singular) is called at
  lines 185 and 928 of `investment_manager.py` but never defined (only
  `_generate_order_sheets`, plural, exists). -/
  | attributeError
  /-- `KeyError`: direct subscript of a dict key that is absent. -/
  | keyError
  /-- `ZeroDivisionError`: `target_value / total_target` with zero total. -/
  | zeroDivisionError
  /-- `TypeError`: calling a function with the wrong number of arguments. -/
  | typeError
deriving DecidableEq, Repr

/-- An ibapi `Contract` as used by the engine (symbol, security type,
exchange, currency). -/
structure Contract where
  symbol : String
  secType : String
  exchange : String
  currency : String
deriving DecidableEq, Repr

/-- One row of the loaded portfolio allocation table: the per-instrument
details stored by `load_portfolio_allocations`. -/
structure InstrDetails where
  target_percentage : ℚ
  instrument_type : String
  exchange : String
deriving DecidableEq, Repr

/-- The `investment_portfolio` table: strategy → instrument → details,
as built by `load_portfolio_allocations` (a dict of dicts, modelled as
nested association lists). -/
abbrev PTable := List (String × List (String × InstrDetails))

/-- Per-instrument entry of an allocation plan
(`_calculate_target_allocation`, lines 355-359). -/
structure IAlloc where
  target_value : ℚ
  instrument_type : String
  exchange : String
deriving DecidableEq, Repr

/-- Per-strategy entry of an allocation plan
(`_calculate_target_allocation`, lines 346-349). -/
structure StratAlloc where
  target_value : ℚ
  instruments : List (String × IAlloc)
deriving DecidableEq, Repr

/-- The allocation plan returned by `_calculate_target_allocation`. -/
abbrev AllocationPlan := List (String × StratAlloc)

/-- A flattened per-instrument target (`_calculate_orders`, lines 586-594). -/
structure FlatTarget where
  strategy : String
  target_value : ℚ
  instrument_type : String
  exchange : String
deriving DecidableEq, Repr

/-- The fields of a position dict that the order calculator reads
(`position`, `marketPrice`, `marketValue`); the display-only fields
(`symbol`, `secType`, `avgCost`, `contract`) are not modelled. -/
structure PosInfo where
  position : ℚ
  marketPrice : ℚ
  marketValue : ℚ
deriving DecidableEq, Repr

/-- A raw brokerage position entry as consumed by `_get_current_positions`:
the `contract` and `position` keys may be absent (the code skips such
entries). -/
structure RawPos where
  contract : Option Contract
  position : Option ℚ
  avgCost : ℚ
deriving DecidableEq, Repr

/-- An entry of `investment_config['market_data_cache']`
(`_get_market_price`, lines 473-477 and 501-506). -/
structure CacheEntry where
  price : ℚ
  timestamp : ℚ
  delayed : Bool
  simulated : Bool
deriving DecidableEq, Repr

/-- The market-data cache: a dict keyed by `symbol_secType_exchange`. -/
abbrev MCache := List (String × CacheEntry)

/-- An order dict as produced by `_calculate_orders` (lines 672-682);
`order_type` is always `'MKT'` and is omitted. -/
structure Order where
  contract : Contract
  action : String
  quantity : ℤ
  strategy : String
  target_value : ℚ
  current_value : ℚ
  price : ℚ
  exchange : String
deriving DecidableEq, Repr

/-- A pending order as carried in `self.pending_orders`.  The `price` and
`target_value` keys may be absent (the code reads them with `.get(...)` in
some places and with raising subscripts in others), so they are `Option`s.
Fields that no modelled code path reads back are omitted. -/
structure POrder where
  contract : Contract
  action : String
  quantity : ℤ
  price : Option ℚ
  target_value : Option ℚ
  strategy : String
  retry_count : ℕ
  order_id : String
deriving DecidableEq, Repr

/-- `self.order_buffer = 1.05` (line 31). -/
def order_buffer : ℚ := 105 / 100

/-- `investment_config['rebalance_threshold'] = 0.05` (line 43). -/
def rebalance_threshold : ℚ := 5 / 100

/-- `investment_config['max_retry_attempts'] = 3` (line 44). -/
def max_retry_attempts : ℕ := 3

/-- `investment_config['market_data_timeout'] = 300` (line 42). -/
def market_data_timeout : ℚ := 300

/-- Association-list lookup, modelling Python `d[k]` / `k in d`. -/
def alist_find {α : Type} (l : List (String × α)) (k : String) : Option α :=
  (l.find? (fun q => q.1 == k)).map (fun q => q.2)

/-- Association-list insert-or-overwrite, modelling Python `d[k] = v`:
an existing key keeps its position (its value is replaced), a new key is
appended at the end, as in insertion-ordered Python dicts. -/
def alist_upsert {α : Type} (l : List (String × α)) (k : String) (v : α) :
    List (String × α) :=
  if (l.find? (fun q => q.1 == k)).isSome then
    l.map (fun q => if q.1 == k then (k, v) else q)
  else
    l ++ [(k, v)]

/-- The keys of an association list, in iteration order. -/
def alist_keys {α : Type} (l : List (String × α)) : List String :=
  l.map Prod.fst

/-- Python `str.strip()`: remove leading and trailing whitespace (an
executable equivalent of `String.trim`, written with structural list
recursion so that concrete instances reduce). -/
def py_strip (s : String) : String :=
  ⟨((s.data.dropWhile Char.isWhitespace).reverse.dropWhile
      Char.isWhitespace).reverse⟩

/-- Python `int(x)` on a rational: truncation toward zero. -/
def pyInt (q : ℚ) : ℤ :=
  if 0 ≤ q then ⌊q⌋ else ⌈q⌉

/-- `_calculate_target_allocation` (lines 322-361): equal strategy weighting
`1 / len(portfolio)`, then `instrument_value = strategy_value ×
target_percentage`.  Returns the empty plan when the portfolio table is
empty (lines 334-336, `if not self.investment_portfolio: return {}`; the
table argument here is the post-`load_portfolio_allocations` state). -/
def calculate_target_allocation (ptable : PTable) (total_value : ℚ) :
    AllocationPlan :=
  if ptable.isEmpty then []
  else
    ptable.map (fun sp =>
      let strategy_weight : ℚ := 1 / (ptable.length : ℚ)
      let strategy_value := total_value * strategy_weight
      (sp.1,
        { target_value := strategy_value,
          instruments := sp.2.map (fun ip =>
            (ip.1,
              { target_value := strategy_value * ip.2.target_percentage,
                instrument_type := ip.2.instrument_type,
                exchange := ip.2.exchange })) }))

/-- Sum of the instrument-level `target_value` fields of an allocation
plan (the quantity claimed to equal the total value). -/
def planInstrTotal (plan : AllocationPlan) : ℚ :=
  (plan.map (fun sp =>
    (sp.2.instruments.map (fun ip => ip.2.target_value)).sum)).sum

/-- Sum of the `target_percentage` column of one strategy of the table. -/
def strategyPctSum (instrs : List (String × InstrDetails)) : ℚ :=
  (instrs.map (fun ip => ip.2.target_percentage)).sum

lemma planInstrTotal_calc (ptable : PTable) (v : ℚ) :
    planInstrTotal (calculate_target_allocation ptable v) =
      (ptable.map (fun sp =>
        v * (1 / (ptable.length : ℚ)) * strategyPctSum sp.2)).sum := by
  unfold planInstrTotal calculate_target_allocation strategyPctSum
  by_cases h : ptable.isEmpty
  · rw [List.isEmpty_iff] at h
    simp [h]
  · rw [if_neg h]
    rw [List.map_map]
    congr 1
    apply List.map_congr_left
    intro sp _
    simp only [Function.comp_apply, List.map_map]
    rw [← List.sum_map_mul_left]
    congr 1

/-- A concrete one-strategy, one-instrument table whose percentages sum
to 1/2, not 1 (nothing in the code enforces the sum). -/
def ptable_half : PTable :=
  [("Growth", [("AAPL", ⟨1/2, "STK", "SMART"⟩)])]

theorem ptable_half_total :
    planInstrTotal (calculate_target_allocation ptable_half 100) = 50 := by
  norm_num [planInstrTotal, calculate_target_allocation, ptable_half]

/-- The exchanges for which `_get_market_price` forces the currency to USD
(lines 450-451) and `_calculate_orders` builds USD contracts (line 637). -/
def us_exchanges : List String := ["SMART", "NYSE", "NASDAQ"]

/-- The market-data cache key `f"{symbol}_{secType}_{exchange}"`
(line 437); computed from the contract as passed, before the
currency/secType adjustments of lines 450-456. -/
def contract_key (c : Contract) : String :=
  c.symbol ++ "_" ++ c.secType ++ "_" ++ c.exchange

/-- The in-place contract mutations of `_get_market_price`
(lines 450-456): force USD currency on US exchanges and strip the
security type before the live request. -/
def adjusted_contract (c : Contract) : Contract :=
  { c with
    currency := if us_exchanges.contains c.exchange then "USD" else c.currency,
    secType := py_strip c.secType }

/-- The simulated last-resort price (lines 494-497):
`100 + (hash(symbol) % 900)` plus a random variation in `[-5, 5]`;
the Python `hash` and `random.uniform` are modelled by the parameters
`hashFn` and `jitter`. -/
def simulated_price (hashFn : String → ℕ) (jitter : ℚ) (sym : String) : ℚ :=
  100 + ((hashFn sym % 900 : ℕ) : ℚ) + jitter

/-- The `except` branch of `_get_market_price` (lines 484-508): use any
cached entry, even an expired one; only when no entry exists synthesize a
simulated price and cache it flagged `simulated`. -/
def gmp_fallback (hashFn : String → ℕ) (jitter now : ℚ) (cache : MCache)
    (key sym : String) : ℚ × MCache :=
  match alist_find cache key with
  | some e => (e.price, cache)
  | none =>
    let price := simulated_price hashFn jitter sym
    (price, alist_upsert cache key ⟨price, now, true, true⟩)

/-- `_get_market_price` (lines 426-508).  `live` models
`self.ibkr.request_market_data`: `none` stands for a raised exception or a
`None` result, and a non-positive `some` price is rejected by the code
itself (lines 469-482, both failure modes join the same `except` path).
On a cache hit younger than `market_data_timeout` the cached price is
returned and the cache is untouched. -/
def get_market_price (live : Contract → Option ℚ) (hashFn : String → ℕ)
    (jitter now : ℚ) (cache : MCache) (c : Contract) (forceRefresh : Bool) :
    ℚ × MCache :=
  let key := contract_key c
  let hit : Option CacheEntry :=
    if forceRefresh then none
    else
      match alist_find cache key with
      | some e =>
          if now - e.timestamp < market_data_timeout then some e else none
      | none => none
  match hit with
  | some e => (e.price, cache)
  | none =>
    match live (adjusted_contract c) with
    | some price =>
        if price > 0 then
          (price, alist_upsert cache key ⟨price, now, true, false⟩)
        else gmp_fallback hashFn jitter now cache key c.symbol
    | none => gmp_fallback hashFn jitter now cache key c.symbol

/-- **C8** (confirmed).  If the live market-data request fails (raises, or
returns `None` or a non-positive price) but the cache holds an entry for the
contract key — however old, and even under `force_refresh` — then
`_get_market_price` returns that cached price, never a synthesized
simulated price. -/
theorem C8_stale_cache_fallback (live : Contract → Option ℚ)
    (hashFn : String → ℕ) (jitter now : ℚ) (cache : MCache) (c : Contract)
    (forceRefresh : Bool)
    (hfail : ∀ p, live (adjusted_contract c) = some p → ¬ 0 < p)
    (e : CacheEntry) (hc : alist_find cache (contract_key c) = some e) :
    (get_market_price live hashFn jitter now cache c forceRefresh).1 =
      e.price := by
  unfold get_market_price gmp_fallback
  by_cases hfr : forceRefresh = true
  · simp only [hfr, if_true, hc]
    cases hlive : live (adjusted_contract c) with
    | none => simp [hc]
    | some p =>
        have hp : ¬ p > 0 := hfail p hlive
        simp [hp, hc]
  · simp only [if_neg hfr, hc]
    by_cases hfresh : now - e.timestamp < market_data_timeout
    · simp [hfresh]
    · simp only [if_neg hfresh]
      cases hlive : live (adjusted_contract c) with
      | none => simp [hc]
      | some p =>
          have hp : ¬ p > 0 := hfail p hlive
          simp [hp, hc]

/-- A concrete contract for witnesses. -/
def aapl_smart : Contract := ⟨"AAPL", "STK", "SMART", "USD"⟩

/-- Witness for `C8_stale_cache_fallback`: an expired cache entry
(timestamp 0, queried at time 1000 > 300) together with a live feed that
always fails still yields the cached price 150. -/
theorem C8_stale_cache_fallback_witness :
    (get_market_price (fun _ => none) (fun _ => 0) 0 1000
      [("AAPL_STK_SMART", ⟨150, 0, true, false⟩)] aapl_smart false).1 =
      150 := by
  have h := C8_stale_cache_fallback (fun _ => none) (fun _ => 0) 0 1000
    [("AAPL_STK_SMART", ⟨150, 0, true, false⟩)] aapl_smart false
    (fun p hp => by simp at hp) ⟨150, 0, true, false⟩ (by decide)
  simpa using h

/-- `_calculate_reserved_cash` (lines 302-320).  For each pending BUY order,
`price = order.get('price', self._get_market_price(order['contract']))`;
note that Python evaluates the `.get` default eagerly, so the market-price
call (and its cache effect, threaded through `gp`/`σ`) happens even when the
`price` key is present. -/
def calculate_reserved_cash {σ : Type} (gp : σ → Contract → ℚ × σ) :
    List POrder → σ → ℚ × σ
  | [], s => (0, s)
  | o :: rest, s =>
      if o.action = "BUY" then
        let fb := gp s o.contract
        let price := o.price.getD fb.1
        let r := calculate_reserved_cash gp rest fb.2
        ((o.quantity : ℚ) * price * order_buffer + r.1, r.2)
      else calculate_reserved_cash gp rest s

/-- Modelled from the spec: `reserve(pendingOrders) -> float`: Σ over BUY
orders of `quantity × price × order_buffer (1.05)`. -/
def reserved_cash_spec (orders : List POrder) : ℚ :=
  ((orders.filter (fun o => o.action == "BUY")).map
    (fun o => (o.quantity : ℚ) * o.price.getD 0 * order_buffer)).sum

/-- **C3** (confirmed).  When every pending order carries a `price` field,
`_calculate_reserved_cash` returns exactly the sum, over the BUY orders, of
`quantity * price * 1.05`; SELL orders contribute nothing, and the result
does not depend on the market-price source `gp`. -/
theorem C3_reserved_cash_sum {σ : Type} (gp : σ → Contract → ℚ × σ)
    (orders : List POrder) (s : σ)
    (hp : ∀ o ∈ orders, o.price.isSome) :
    (calculate_reserved_cash gp orders s).1 = reserved_cash_spec orders := by
  induction orders generalizing s with
  | nil => simp [calculate_reserved_cash, reserved_cash_spec]
  | cons o rest ih =>
      have ho := hp o (by simp)
      have hrest : ∀ o' ∈ rest, o'.price.isSome := fun o' h => hp o' (by simp [h])
      cases hpo : o.price with
      | none => rw [hpo] at ho; simp at ho
      | some p =>
          by_cases hb : o.action = "BUY" <;>
            simp [calculate_reserved_cash, reserved_cash_spec, hb, hpo,
              List.filter_cons, ih _ hrest, reserved_cash_spec]

/-- Witness for `C3_reserved_cash_sum`: one BUY of 10 at price 150 plus one
SELL (ignored) reserve exactly `10 × 150 × 1.05 = 1575`, whatever the price
source returns. -/
theorem C3_reserved_cash_sum_witness :
    (calculate_reserved_cash (fun (s : Unit) _ => (7, s))
      [⟨aapl_smart, "BUY", 10, some 150, some 1500, "Growth", 0, "o1"⟩,
       ⟨aapl_smart, "SELL", 4, some 99, none, "Growth", 0, "o2"⟩] ()).1 =
      1575 := by
  rw [C3_reserved_cash_sum _ _ _ (by intro o ho; fin_cases ho <;> simp)]
  simp only [reserved_cash_spec, List.filter_cons,
    show (("BUY" : String) == "BUY") = true from by decide,
    show (("SELL" : String) == "BUY") = false from by decide]
  norm_num [order_buffer]

/-- `order_item.get('retry_count', 0) >= max_retry_attempts` (line 167 /
line 917): the order has exhausted its retries. -/
def order_expired (o : POrder) : Bool :=
  max_retry_attempts ≤ o.retry_count

/-- The pending-order retry pass of `handle_excess_cash_investment`
(lines 157-193), returning the surviving pending list and the released
cash.  An expired BUY order releases `quantity * price * order_buffer`
(line 172, a raising subscript of `price`) and is dropped; expired non-BUY
orders are just dropped.  For a non-expired order, lines 179-182
re-price the order and increment its retry count, but line 185 then calls
`self._generate_order_sheet` — a method that does not exist (only
`_generate_order_sheets`, plural, is defined) — so the pass raises
`AttributeError` there; the state mutated before the raise is discarded
with the propagating exception, so no price state is threaded here. -/
def handle_retry_pass : List POrder → Except PyError (List POrder × ℚ)
  | [] => .ok ([], 0)
  | o :: rest =>
      if order_expired o then
        if o.action = "BUY" then
          match o.price with
          | none => .error .keyError
          | some p =>
              match handle_retry_pass rest with
              | .error err => .error err
              | .ok (surv, rel) =>
                  .ok (surv, (o.quantity : ℚ) * p * order_buffer + rel)
        else handle_retry_pass rest
      else .error .attributeError

/-- The pending-order retry pass of `rebalance_portfolio` (lines 912-936).
An expired order is skipped with no further action — in particular, unlike
the excess-cash pass, **no reserved cash is released** (lines 917-919).
A non-expired order reaches line 928, which calls the undefined
`self._generate_order_sheet` and raises `AttributeError`. -/
def rebalance_retry_pass : List POrder → Except PyError (List POrder)
  | [] => .ok []
  | o :: rest =>
      if order_expired o then rebalance_retry_pass rest
      else .error .attributeError

/-- Modelled from the spec: the cash released by one `processRetries` pass,
`Σ over expired BUY orders of quantity × price × order_buffer`. -/
def released_cash_spec (orders : List POrder) : ℚ :=
  ((orders.filter (fun o => order_expired o && o.action == "BUY")).map
    (fun o => (o.quantity : ℚ) * o.price.getD 0 * order_buffer)).sum

/-- Lines 944-949 of `rebalance_portfolio`: the cash available to the
new-order calculation is `max(0, AvailableFunds_USD - reserved_cash)`,
where reserved cash is recomputed from the surviving pending orders;
nothing is ever added back for expired orders. -/
def rebalance_effective_cash {σ : Type} (gp : σ → Contract → ℚ × σ) (s : σ)
    (available_funds_usd : ℚ) (surv : List POrder) : ℚ :=
  max 0 (available_funds_usd - (calculate_reserved_cash gp surv s).1)

/-- **C2, amended** (the original claim fails for `rebalance_portfolio`, see
`C2_rebalance_release_cex`).  For the retry pass of
`handle_excess_cash_investment`: whenever the pass completes, every order
that had reached `max_retry_attempts` is absent from the surviving pending
list (every survivor is non-expired), and each expired BUY order's
`quantity * price * 1.05` is counted in the released cash exactly once.
For the retry pass of `rebalance_portfolio`: expired orders are likewise
dropped, but they have no effect at all on the pass — no released-cash
amount is computed for them (their reservation disappears only because
reserved cash is later recomputed from the surviving list). -/
theorem C2_retry_termination_amended (pending : List POrder) :
    (∀ surv rel, handle_retry_pass pending = .ok (surv, rel) →
      (∀ o ∈ surv, order_expired o = false) ∧
        rel = released_cash_spec pending) ∧
    rebalance_retry_pass pending =
      rebalance_retry_pass (pending.filter (fun o => !(order_expired o))) := by
  constructor
  · induction pending with
    | nil =>
        intro surv rel h
        simp only [handle_retry_pass] at h
        obtain ⟨h1, h2⟩ := Prod.mk.injEq .. ▸ (Except.ok.injEq .. ▸ h)
        simp [← h1, ← h2, released_cash_spec]
    | cons o rest ih =>
        intro surv rel h
        by_cases he : order_expired o = true
        · by_cases hb : o.action = "BUY"
          · simp only [handle_retry_pass, he, if_true, hb] at h
            cases hpo : o.price with
            | none => rw [hpo] at h; exact absurd h (by simp)
            | some p =>
                rw [hpo] at h
                cases hrest : handle_retry_pass rest with
                | error e => rw [hrest] at h; exact absurd h (by simp)
                | ok pr =>
                    rw [hrest] at h
                    simp only [Except.ok.injEq] at h
                    obtain ⟨hsurv, hrel⟩ := Prod.mk.injEq .. ▸ h
                    have hih := ih pr.1 pr.2 (by rw [hrest])
                    constructor
                    · intro x hx; exact hih.1 x (hsurv ▸ hx)
                    · rw [← hrel, hih.2]
                      simp [released_cash_spec, List.filter_cons, he, hb, hpo]
          · simp only [handle_retry_pass, he, if_true, hb, if_false] at h
            have hih := ih surv rel h
            refine ⟨hih.1, ?_⟩
            rw [hih.2]
            simp [released_cash_spec, List.filter_cons, he, hb]
        · simp only [handle_retry_pass, he] at h
          exact absurd h (by simp)
  · induction pending with
    | nil => rfl
    | cons o rest ih =>
        by_cases he : order_expired o = true
        · simp only [rebalance_retry_pass, he, if_true, List.filter_cons,
            Bool.not_eq_true']
          rw [ih]
          simp [he]
        · have he' : order_expired o = false := by
            cases hcase : order_expired o
            · rfl
            · exact absurd hcase he
          simp only [rebalance_retry_pass, he', List.filter_cons]
          simp [he', rebalance_retry_pass]

/-- An expired pending BUY order (retry_count = max_retry_attempts = 3)
for 10 shares at a stored price of 150. -/
def expired_buy : POrder :=
  ⟨aapl_smart, "BUY", 10, some 150, some 1500, "Growth", 3, "x1"⟩

/-- **C2 counterexample.**  The claim asserts that the retry pass of
`rebalance_portfolio` also adds `quantity * price * 1.05` to the released
cash for each expired BUY order.  It does not: the pass drops the expired
order with no cash release (lines 917-919 just `continue`), and the cash
available to the subsequent order calculation is
`max(0, AvailableFunds_USD - reserved(surviving))` (line 949) with no
released component.  Concretely, with one expired BUY of 10 at 150 and
`AvailableFunds_USD = 1000`, the surviving list is `[]` and the available
cash is 1000 — not `1000 + 1575` as the claim would require
(`released_cash_spec [expired_buy] = 1575`). -/
theorem C2_rebalance_release_cex :
    rebalance_retry_pass [expired_buy] = .ok [] ∧
    rebalance_effective_cash (fun (s : Unit) _ => (150, s)) () 1000 [] = 1000 ∧
    released_cash_spec [expired_buy] = 1575 ∧
    rebalance_effective_cash (fun (s : Unit) _ => (150, s)) () 1000 [] ≠
      1000 + released_cash_spec [expired_buy] := by
  have hrel : released_cash_spec [expired_buy] = 1575 := by
    simp [released_cash_spec, expired_buy, order_expired, max_retry_attempts,
      List.filter_cons, order_buffer]
    norm_num
  have heff :
      rebalance_effective_cash (fun (s : Unit) _ => (150, s)) () 1000 [] =
        1000 := by
    simp [rebalance_effective_cash, calculate_reserved_cash]
  refine ⟨by simp [rebalance_retry_pass, order_expired, expired_buy,
      max_retry_attempts], heff, hrel, ?_⟩
  rw [heff, hrel]
  norm_num

/-- Witness for `C2_retry_termination_amended`, at the one-element pending
list `[expired_buy]`: the completed excess-cash pass leaves no survivor and
releases exactly `10 × 150 × 1.05 = 1575`. -/
theorem C2_retry_termination_witness :
    (∀ o ∈ ([] : List POrder), order_expired o = false) ∧
    (1575 : ℚ) = released_cash_spec [expired_buy] := by
  apply (C2_retry_termination_amended [expired_buy]).1 [] 1575
  simp [handle_retry_pass, order_expired, expired_buy, max_retry_attempts,
    order_buffer]
  norm_num

/-- Lines 564-575 of `_calculate_orders`: combine current positions and
pending orders.  For a symbol already present only the `position` count is
incremented (the stored `marketValue` is **not** updated); a new symbol gets
a fresh entry priced at the pending order's stored price (`order['price']`,
a raising subscript — hence the `Except`). -/
def build_effective_positions : List (String × PosInfo) → List POrder →
    Except PyError (List (String × PosInfo))
  | eff, [] => .ok eff
  | eff, o :: rest =>
      let sym := o.contract.symbol
      match alist_find eff sym with
      | some p =>
          build_effective_positions
            (alist_upsert eff sym
              { p with position := p.position + (o.quantity : ℚ) }) rest
      | none =>
          match o.price with
          | none => .error .keyError
          | some pr =>
              build_effective_positions
                (alist_upsert eff sym
                  ⟨(o.quantity : ℚ), pr, (o.quantity : ℚ) * pr⟩) rest

/-- Lines 585-594: flatten the allocation plan into per-instrument targets.
A duplicated instrument symbol overwrites the earlier entry (Python dict
assignment); `instrument_type` is stripped. -/
def flatten_allocation (plan : AllocationPlan) : List (String × FlatTarget) :=
  plan.foldl (fun acc sp =>
    sp.2.instruments.foldl (fun acc2 ip =>
      alist_upsert acc2 ip.1
        { strategy := sp.1, target_value := ip.2.target_value,
          instrument_type := py_strip ip.2.instrument_type,
          exchange := ip.2.exchange }) acc) []

/-- Line 597: `total_target = sum of target_value over the flattened
allocation`. -/
def flat_total (flat : List (String × FlatTarget)) : ℚ :=
  (flat.map (fun p => p.2.target_value)).sum

/-- Lines 607-614: the current (effective) value of an instrument, i.e. the
stored `marketValue`, or 0 when the symbol has no effective position. -/
def current_value_of (eff : List (String × PosInfo)) (inst : String) : ℚ :=
  match alist_find eff inst with
  | some p => p.marketValue
  | none => 0

/-- Lines 633-637: the contract built for an instrument of the flattened
allocation (USD on US exchanges, SGD otherwise). -/
def mk_order_contract (inst : String) (tgt : FlatTarget) : Contract :=
  { symbol := inst, secType := tgt.instrument_type, exchange := tgt.exchange,
    currency := if us_exchanges.contains tgt.exchange then "USD" else "SGD" }

/-- The per-instrument loop of `_calculate_orders` (lines 601-684), with
the running `remaining_cash` and the market-price state threaded through.
In order: dead-band filter (lines 621-625); `allocation_ratio =
target_value / total_target` (line 628, `ZeroDivisionError` when the total
is zero); market price fetch (line 639; `_get_market_price` always returns
a number, so the `is None` skip of lines 640-642 is dead); quantity
`int(allocated_cash / price)` with the insufficient-cash shrink to
`int(remaining_cash / price)` (lines 646-661); emission and cash decrement
(lines 663-683). -/
def calc_orders_loop {σ : Type} (gp : σ → Contract → ℚ × σ)
    (available_cash total_target : ℚ) (eff : List (String × PosInfo)) :
    List (String × FlatTarget) → ℚ → σ → Except PyError (List Order × ℚ × σ)
  | [], remaining, s => .ok ([], remaining, s)
  | (inst, tgt) :: rest, remaining, s =>
      let current_value := current_value_of eff inst
      let value_diff := tgt.target_value - current_value
      let threshold := tgt.target_value * rebalance_threshold
      if |value_diff| < threshold then
        calc_orders_loop gp available_cash total_target eff rest remaining s
      else if total_target = 0 then .error .zeroDivisionError
      else
        let allocated_cash :=
          available_cash * (tgt.target_value / total_target)
        let contract := mk_order_contract inst tgt
        let gpr := gp s contract
        let market_price := gpr.1
        if market_price > 0 then
          let qty := pyInt (allocated_cash / market_price)
          if qty ≤ 0 then
            calc_orders_loop gp available_cash total_target eff rest
              remaining gpr.2
          else
            let order_value := (qty : ℚ) * market_price
            if order_value > remaining then
              let qty2 := pyInt (remaining / market_price)
              if qty2 ≤ 0 then
                calc_orders_loop gp available_cash total_target eff rest
                  remaining gpr.2
              else
                let order_value2 := (qty2 : ℚ) * market_price
                match calc_orders_loop gp available_cash total_target eff
                  rest (remaining - order_value2) gpr.2 with
                | .error e => .error e
                | .ok (os, rem, s2) =>
                    .ok ({ contract := contract,
                           action := if qty2 > 0 then "BUY" else "SELL",
                           quantity := |qty2|,
                           strategy := tgt.strategy,
                           target_value := tgt.target_value,
                           current_value := current_value,
                           price := market_price,
                           exchange := tgt.exchange } :: os, rem, s2)
            else
              match calc_orders_loop gp available_cash total_target eff
                rest (remaining - order_value) gpr.2 with
              | .error e => .error e
              | .ok (os, rem, s2) =>
                  .ok ({ contract := contract,
                         action := if qty > 0 then "BUY" else "SELL",
                         quantity := |qty|,
                         strategy := tgt.strategy,
                         target_value := tgt.target_value,
                         current_value := current_value,
                         price := market_price,
                         exchange := tgt.exchange } :: os, rem, s2)
        else
          calc_orders_loop gp available_cash total_target eff rest
            remaining gpr.2

/-- `_calculate_orders` (lines 540-686): effective positions, flattened
targets, then the per-instrument loop starting from
`remaining_cash = available_cash`. -/
def calculate_orders {σ : Type} (gp : σ → Contract → ℚ × σ)
    (plan : AllocationPlan) (current_positions : List (String × PosInfo))
    (available_cash : ℚ) (pending : List POrder) (s : σ) :
    Except PyError (List Order × ℚ × σ) :=
  match build_effective_positions current_positions pending with
  | .error e => .error e
  | .ok eff =>
      let flat := flatten_allocation plan
      calc_orders_loop gp available_cash (flat_total flat) eff flat
        available_cash s

/-- Total money value of a list of orders: `Σ quantity × price`. -/
def orders_value (os : List Order) : ℚ :=
  (os.map (fun o => (o.quantity : ℚ) * o.price)).sum

lemma pyInt_cast_le (q : ℚ) (h : 0 ≤ q) : (pyInt q : ℚ) ≤ q := by
  unfold pyInt
  rw [if_pos h]
  exact_mod_cast Int.floor_le q

lemma calc_orders_loop_value {σ : Type} (gp : σ → Contract → ℚ × σ)
    (avail tt : ℚ) (eff : List (String × PosInfo)) :
    ∀ (flat : List (String × FlatTarget)) (remaining : ℚ) (s : σ)
      (os : List Order) (rem : ℚ) (s2 : σ), 0 ≤ remaining →
      calc_orders_loop gp avail tt eff flat remaining s =
        .ok (os, rem, s2) →
      orders_value os = remaining - rem ∧ 0 ≤ rem := by
  intro flat
  induction flat with
  | nil =>
      intro remaining s os rem s2 h0 h
      simp only [calc_orders_loop, Except.ok.injEq, Prod.mk.injEq] at h
      obtain ⟨h1, h2, _⟩ := h
      subst h1
      subst h2
      simp [orders_value, h0]
  | cons p rest ih =>
      obtain ⟨inst, tgt⟩ := p
      intro remaining s os rem s2 h0 h
      simp only [calc_orders_loop] at h
      by_cases hdb : |tgt.target_value - current_value_of eff inst| <
          tgt.target_value * rebalance_threshold
      · rw [if_pos hdb] at h
        exact ih remaining s os rem s2 h0 h
      · rw [if_neg hdb] at h
        by_cases htt : tt = 0
        · rw [if_pos htt] at h
          exact absurd h (by simp)
        · rw [if_neg htt] at h
          by_cases hmp0 : (gp s (mk_order_contract inst tgt)).1 > 0
          · rw [if_pos hmp0] at h
            set mp := (gp s (mk_order_contract inst tgt)).1 with hmp
            set s1 := (gp s (mk_order_contract inst tgt)).2 with hs1
            set qty := pyInt (avail * (tgt.target_value / tt) / mp) with hqty
            by_cases hq0 : qty ≤ 0
            · rw [if_pos hq0] at h
              exact ih remaining s1 os rem s2 h0 h
            · rw [if_neg hq0] at h
              by_cases hov : (qty : ℚ) * mp > remaining
              · rw [if_pos hov] at h
                set qty2 := pyInt (remaining / mp) with hqty2
                by_cases hq20 : qty2 ≤ 0
                · rw [if_pos hq20] at h
                  exact ih remaining s1 os rem s2 h0 h
                · rw [if_neg hq20] at h
                  have hle : (qty2 : ℚ) * mp ≤ remaining := by
                    have h1 : (qty2 : ℚ) ≤ remaining / mp := by
                      rw [hqty2]
                      exact pyInt_cast_le _ (div_nonneg h0 (le_of_lt hmp0))
                    calc (qty2 : ℚ) * mp ≤ remaining / mp * mp :=
                          mul_le_mul_of_nonneg_right h1 (le_of_lt hmp0)
                      _ = remaining := div_mul_cancel₀ _ (ne_of_gt hmp0)
                  cases hrec : calc_orders_loop gp avail tt eff rest
                      (remaining - (qty2 : ℚ) * mp) s1 with
                  | error e =>
                      rw [hrec] at h
                      exact absurd h (by simp)
                  | ok trip =>
                      obtain ⟨os', rem', s2'⟩ := trip
                      rw [hrec] at h
                      simp only [Except.ok.injEq, Prod.mk.injEq] at h
                      obtain ⟨ho, hr, hs⟩ := h
                      have hih := ih (remaining - (qty2 : ℚ) * mp) s1 os'
                        rem' s2' (by linarith) hrec
                      have hq2pos : (0 : ℤ) < qty2 := lt_of_not_le hq20
                      constructor
                      · rw [← ho]
                        simp only [orders_value, List.map_cons, List.sum_cons]
                        have habs : |qty2| = qty2 := abs_of_pos hq2pos
                        rw [habs, ← hr]
                        have := hih.1
                        simp only [orders_value] at this
                        linarith
                      · rw [← hr]
                        exact hih.2
              · rw [if_neg hov] at h
                have hle : (qty : ℚ) * mp ≤ remaining := le_of_not_lt hov
                cases hrec : calc_orders_loop gp avail tt eff rest
                    (remaining - (qty : ℚ) * mp) s1 with
                | error e =>
                    rw [hrec] at h
                    exact absurd h (by simp)
                | ok trip =>
                    obtain ⟨os', rem', s2'⟩ := trip
                    rw [hrec] at h
                    simp only [Except.ok.injEq, Prod.mk.injEq] at h
                    obtain ⟨ho, hr, hs⟩ := h
                    have hih := ih (remaining - (qty : ℚ) * mp) s1 os'
                      rem' s2' (by linarith) hrec
                    have hqpos : (0 : ℤ) < qty := lt_of_not_le hq0
                    constructor
                    · rw [← ho]
                      simp only [orders_value, List.map_cons, List.sum_cons]
                      have habs : |qty| = qty := abs_of_pos hqpos
                      rw [habs, ← hr]
                      have := hih.1
                      simp only [orders_value] at this
                      linarith
                    · rw [← hr]
                      exact hih.2
          · rw [if_neg hmp0] at h
            exact ih remaining _ os rem s2 h0 h

/-- **C4** (confirmed).  For every call of `_calculate_orders` with
non-negative available cash and a positive market price for every fetch
that returns orders at all, the total money value `Σ quantity × price` of
the returned orders is at most the available cash: each emitted order's
value never exceeds the remaining cash at emission time, and the remaining
cash is decremented by each emitted order's value (the proof tracks the
invariant `orders_value = initial − remaining ∧ 0 ≤ remaining`). -/
theorem C4_orders_bounded_by_cash {σ : Type} (gp : σ → Contract → ℚ × σ)
    (plan : AllocationPlan) (current_positions : List (String × PosInfo))
    (available_cash : ℚ) (pending : List POrder) (s : σ)
    (hcash : 0 ≤ available_cash)
    (_hpos : ∀ (s' : σ) (c : Contract), 0 < (gp s' c).1)
    (os : List Order) (rem : ℚ) (s2 : σ)
    (h : calculate_orders gp plan current_positions available_cash pending
        s = .ok (os, rem, s2)) :
    orders_value os ≤ available_cash := by
  unfold calculate_orders at h
  cases hb : build_effective_positions current_positions pending with
  | error e =>
      rw [hb] at h
      exact absurd h (by simp)
  | ok eff =>
      rw [hb] at h
      have := calc_orders_loop_value gp available_cash
        (flat_total (flatten_allocation plan)) eff
        (flatten_allocation plan) available_cash s os rem s2 hcash h
      linarith [this.1, this.2]

/-- A one-strategy, one-instrument allocation plan targeting 500 for AAPL. -/
def plan1 : AllocationPlan :=
  [("Growth", ⟨500, [("AAPL", ⟨500, "STK", "SMART"⟩)]⟩)]

/-- A stateless price source that always quotes 150. -/
def gp150 : Unit → Contract → ℚ × Unit := fun s _ => (150, s)

/-- Witness for `C4_orders_bounded_by_cash`: one instrument targeting 500
at a market price of 150 with 1000 available cash yields a single BUY of
`int(1000 × (500/500) / 150) = 6` shares worth `900 ≤ 1000`. -/
theorem C4_orders_bounded_by_cash_witness :
    orders_value
      [{ contract := mk_order_contract "AAPL" ⟨"Growth", 500, "STK", "SMART"⟩,
         action := "BUY", quantity := 6, strategy := "Growth",
         target_value := 500, current_value := 0, price := 150,
         exchange := "SMART" }] ≤ 1000 :=
  C4_orders_bounded_by_cash gp150 plan1 [] 1000 [] () (by norm_num)
    (fun _ _ => by norm_num [gp150]) _ 100 ()
    (by norm_num [calculate_orders, build_effective_positions,
      flatten_allocation, alist_upsert, flat_total, calc_orders_loop,
      current_value_of, alist_find, rebalance_threshold, pyInt, gp150,
      plan1, mk_order_contract, us_exchanges,
      show py_strip "STK" = "STK" from by decide])

lemma alist_upsert_keys_of_found {α : Type} (l : List (String × α))
    (k : String) (v : α)
    (h : (l.find? (fun q => q.1 == k)).isSome = true) :
    alist_keys (alist_upsert l k v) = alist_keys l := by
  unfold alist_upsert alist_keys
  rw [if_pos h, List.map_map]
  apply List.map_congr_left
  intro q _
  simp only [Function.comp_apply]
  by_cases hk : (q.1 == k) = true
  · rw [if_pos hk]
    exact (eq_of_beq hk).symm
  · rw [if_neg hk]

lemma alist_upsert_keys_of_not_found {α : Type} (l : List (String × α))
    (k : String) (v : α)
    (h : ¬ (l.find? (fun q => q.1 == k)).isSome = true) :
    alist_keys (alist_upsert l k v) = alist_keys l ++ [k] := by
  unfold alist_upsert alist_keys
  rw [if_neg h, List.map_append]
  rfl

lemma alist_not_found_not_mem {α : Type} (l : List (String × α))
    (k : String)
    (h : ¬ (l.find? (fun q => q.1 == k)).isSome = true) :
    k ∉ alist_keys l := by
  intro hmem
  obtain ⟨q, hq, hfst⟩ := List.mem_map.mp hmem
  have hnone : l.find? (fun q => q.1 == k) = none :=
    Option.not_isSome_iff_eq_none.mp h
  have := List.find?_eq_none.mp hnone q hq
  exact this (by rw [hfst]; exact beq_self_eq_true k)

lemma alist_upsert_keys_nodup {α : Type} (l : List (String × α))
    (k : String) (v : α) (h : (alist_keys l).Nodup) :
    (alist_keys (alist_upsert l k v)).Nodup := by
  by_cases hf : (l.find? (fun q => q.1 == k)).isSome = true
  · rw [alist_upsert_keys_of_found l k v hf]
    exact h
  · rw [alist_upsert_keys_of_not_found l k v hf]
    simp [List.nodup_append, h, alist_not_found_not_mem l k hf]

lemma foldl_upsert_keys_nodup {α β : Type} (key : β → String) (val : β → α) :
    ∀ (l : List β) (acc : List (String × α)), (alist_keys acc).Nodup →
      (alist_keys
        (l.foldl (fun a b => alist_upsert a (key b) (val b)) acc)).Nodup := by
  intro l
  induction l with
  | nil => intro acc h; exact h
  | cons b rest ih =>
      intro acc h
      simp only [List.foldl_cons]
      exact ih _ (alist_upsert_keys_nodup _ _ _ h)

lemma flatten_allocation_keys_nodup (plan : AllocationPlan) :
    (alist_keys (flatten_allocation plan)).Nodup := by
  unfold flatten_allocation
  suffices hgen : ∀ (pl : AllocationPlan) (acc : List (String × FlatTarget)),
      (alist_keys acc).Nodup →
      (alist_keys (pl.foldl (fun acc sp =>
        sp.2.instruments.foldl (fun acc2 ip =>
          alist_upsert acc2 ip.1
            (⟨sp.1, ip.2.target_value, py_strip ip.2.instrument_type,
              ip.2.exchange⟩ : FlatTarget)) acc) acc)).Nodup by
    exact hgen plan [] (by simp [alist_keys])
  intro pl
  induction pl with
  | nil => intro acc h; exact h
  | cons sp rest ih =>
      intro acc h
      simp only [List.foldl_cons]
      exact ih _ (foldl_upsert_keys_nodup (fun ip => ip.1)
        (fun ip => (⟨sp.1, ip.2.target_value, py_strip ip.2.instrument_type,
          ip.2.exchange⟩ : FlatTarget)) sp.2.instruments acc h)

lemma alist_nodup_mem_unique {α : Type} :
    ∀ {l : List (String × α)}, (alist_keys l).Nodup →
      ∀ {k : String} {v1 v2 : α}, (k, v1) ∈ l → (k, v2) ∈ l → v1 = v2 := by
  intro l
  induction l with
  | nil => intro _ k v1 v2 h1; simp at h1
  | cons q rest ih =>
      intro hnd k v1 v2 h1 h2
      have hnd2 : q.1 ∉ alist_keys rest ∧ (alist_keys rest).Nodup := by
        simpa [alist_keys] using hnd
      rcases List.mem_cons.mp h1 with he1 | hm1 <;>
        rcases List.mem_cons.mp h2 with he2 | hm2
      · rw [← he1] at he2
        exact ((Prod.ext_iff.mp he2).2).symm
      · exfalso
        apply hnd2.1
        have hk : k ∈ alist_keys rest := List.mem_map_of_mem Prod.fst hm2
        rw [← he1]
        exact hk
      · exfalso
        apply hnd2.1
        have hk : k ∈ alist_keys rest := List.mem_map_of_mem Prod.fst hm1
        rw [← he2]
        exact hk
      · exact ih hnd2.2 hm1 hm2

lemma calc_orders_loop_emitted {σ : Type} (gp : σ → Contract → ℚ × σ)
    (avail tt : ℚ) (eff : List (String × PosInfo)) :
    ∀ (flat : List (String × FlatTarget)) (remaining : ℚ) (s : σ)
      (os : List Order) (rem : ℚ) (s2 : σ),
      calc_orders_loop gp avail tt eff flat remaining s =
        .ok (os, rem, s2) →
      ∀ o ∈ os, ∃ k t, (k, t) ∈ flat ∧ o.contract.symbol = k ∧
        ¬ (|t.target_value - current_value_of eff k| <
            t.target_value * rebalance_threshold) := by
  intro flat
  induction flat with
  | nil =>
      intro remaining s os rem s2 h o ho
      simp only [calc_orders_loop, Except.ok.injEq, Prod.mk.injEq] at h
      rw [← h.1] at ho
      simp at ho
  | cons p rest ih =>
      obtain ⟨k0, t0⟩ := p
      intro remaining s os rem s2 h o ho
      simp only [calc_orders_loop] at h
      by_cases hdb : |t0.target_value - current_value_of eff k0| <
          t0.target_value * rebalance_threshold
      · rw [if_pos hdb] at h
        obtain ⟨k, t, hmem, hsym, hnd⟩ := ih remaining s os rem s2 h o ho
        exact ⟨k, t, List.mem_cons_of_mem _ hmem, hsym, hnd⟩
      · rw [if_neg hdb] at h
        by_cases htt : tt = 0
        · rw [if_pos htt] at h
          exact absurd h (by simp)
        · rw [if_neg htt] at h
          by_cases hmp0 : (gp s (mk_order_contract k0 t0)).1 > 0
          · rw [if_pos hmp0] at h
            by_cases hq0 : pyInt (avail * (t0.target_value / tt) /
                (gp s (mk_order_contract k0 t0)).1) ≤ 0
            · rw [if_pos hq0] at h
              obtain ⟨k, t, hmem, hsym, hnd⟩ :=
                ih remaining _ os rem s2 h o ho
              exact ⟨k, t, List.mem_cons_of_mem _ hmem, hsym, hnd⟩
            · rw [if_neg hq0] at h
              by_cases hov : ((pyInt (avail * (t0.target_value / tt) /
                  (gp s (mk_order_contract k0 t0)).1) : ℚ)) *
                  (gp s (mk_order_contract k0 t0)).1 > remaining
              · rw [if_pos hov] at h
                by_cases hq20 : pyInt (remaining /
                    (gp s (mk_order_contract k0 t0)).1) ≤ 0
                · rw [if_pos hq20] at h
                  obtain ⟨k, t, hmem, hsym, hnd⟩ :=
                    ih remaining _ os rem s2 h o ho
                  exact ⟨k, t, List.mem_cons_of_mem _ hmem, hsym, hnd⟩
                · rw [if_neg hq20] at h
                  cases hrec : calc_orders_loop gp avail tt eff rest
                      (remaining - (pyInt (remaining /
                        (gp s (mk_order_contract k0 t0)).1) : ℚ) *
                        (gp s (mk_order_contract k0 t0)).1)
                      (gp s (mk_order_contract k0 t0)).2 with
                  | error e =>
                      rw [hrec] at h
                      exact absurd h (by simp)
                  | ok trip =>
                      obtain ⟨os1, rem1, s21⟩ := trip
                      rw [hrec] at h
                      simp only [Except.ok.injEq, Prod.mk.injEq] at h
                      rw [← h.1] at ho
                      rcases List.mem_cons.mp ho with hh | ht
                      · refine ⟨k0, t0, List.mem_cons_self _ _, ?_, hdb⟩
                        rw [hh]
                        rfl
                      · obtain ⟨k, t, hmem, hsym, hnd⟩ :=
                          ih _ _ os1 rem1 s21 hrec o ht
                        exact ⟨k, t, List.mem_cons_of_mem _ hmem, hsym, hnd⟩
              · rw [if_neg hov] at h
                cases hrec : calc_orders_loop gp avail tt eff rest
                    (remaining - (pyInt (avail * (t0.target_value / tt) /
                      (gp s (mk_order_contract k0 t0)).1) : ℚ) *
                      (gp s (mk_order_contract k0 t0)).1)
                    (gp s (mk_order_contract k0 t0)).2 with
                | error e =>
                    rw [hrec] at h
                    exact absurd h (by simp)
                | ok trip =>
                    obtain ⟨os1, rem1, s21⟩ := trip
                    rw [hrec] at h
                    simp only [Except.ok.injEq, Prod.mk.injEq] at h
                    rw [← h.1] at ho
                    rcases List.mem_cons.mp ho with hh | ht
                    · refine ⟨k0, t0, List.mem_cons_self _ _, ?_, hdb⟩
                      rw [hh]
                      rfl
                    · obtain ⟨k, t, hmem, hsym, hnd⟩ :=
                        ih _ _ os1 rem1 s21 hrec o ht
                      exact ⟨k, t, List.mem_cons_of_mem _ hmem, hsym, hnd⟩
          · rw [if_neg hmp0] at h
            obtain ⟨k, t, hmem, hsym, hnd⟩ := ih remaining _ os rem s2 h o ho
            exact ⟨k, t, List.mem_cons_of_mem _ hmem, hsym, hnd⟩

/-- **C9** (confirmed).  An instrument of the flattened allocation plan
whose absolute difference between target value and current effective value
(current positions plus pending orders) is strictly below
`rebalance_threshold × target_value` never appears among the orders
returned by `_calculate_orders`. -/
theorem C9_deadband_skips_instrument {σ : Type} (gp : σ → Contract → ℚ × σ)
    (plan : AllocationPlan) (current_positions : List (String × PosInfo))
    (available_cash : ℚ) (pending : List POrder) (s : σ)
    (eff : List (String × PosInfo))
    (hb : build_effective_positions current_positions pending = .ok eff)
    (inst : String) (tgt : FlatTarget)
    (hmem : (inst, tgt) ∈ flatten_allocation plan)
    (hdb : |tgt.target_value - current_value_of eff inst| <
      tgt.target_value * rebalance_threshold)
    (os : List Order) (rem : ℚ) (s2 : σ)
    (h : calculate_orders gp plan current_positions available_cash pending
      s = .ok (os, rem, s2)) :
    ∀ o ∈ os, o.contract.symbol ≠ inst := by
  intro o ho heq
  unfold calculate_orders at h
  rw [hb] at h
  obtain ⟨k, t, hmem2, hsym, hnd⟩ :=
    calc_orders_loop_emitted gp available_cash
      (flat_total (flatten_allocation plan)) eff (flatten_allocation plan)
      available_cash s os rem s2 h o ho
  have hk : k = inst := by rw [← hsym, heq]
  rw [hk] at hmem2 hnd
  have ht : t = tgt :=
    alist_nodup_mem_unique (flatten_allocation_keys_nodup plan) hmem2 hmem
  rw [ht] at hnd
  exact hnd hdb

/-- A one-strategy plan targeting 500 for AAPL and 500 for MSFT. -/
def plan2 : AllocationPlan :=
  [("Growth", ⟨1000, [("AAPL", ⟨500, "STK", "SMART"⟩),
                      ("MSFT", ⟨500, "STK", "SMART"⟩)]⟩)]

/-- The MSFT order that `_calculate_orders` emits from `plan2` at price
150 with 1000 cash when AAPL is inside its dead band. -/
def msft_order : Order :=
  { contract := mk_order_contract "MSFT" ⟨"Growth", 500, "STK", "SMART"⟩,
    action := "BUY", quantity := 3, strategy := "Growth",
    target_value := 500, current_value := 0, price := 150,
    exchange := "SMART" }

/-- Witness for `C9_deadband_skips_instrument`: AAPL targets 500 while the
current position is worth 490 (`|500 − 490| = 10 < 25 = 5% × 500`), so the
single order calculated from `plan2` is the MSFT one — its symbol is not
AAPL. -/
theorem C9_deadband_skips_instrument_witness :
    msft_order.contract.symbol ≠ "AAPL" := by
  have hflat : flatten_allocation plan2 =
      [("AAPL", (⟨"Growth", 500, "STK", "SMART"⟩ : FlatTarget)),
       ("MSFT", (⟨"Growth", 500, "STK", "SMART"⟩ : FlatTarget))] := by
    norm_num [flatten_allocation, plan2, alist_upsert,
      show py_strip "STK" = "STK" from by decide,
      show ¬ (("AAPL" : String) = "MSFT") from by decide,
      show ¬ (("MSFT" : String) = "AAPL") from by decide]
  have hcv : current_value_of [("AAPL", (⟨3, 160, 490⟩ : PosInfo))] "AAPL" =
      490 := by decide
  have hcvm : current_value_of [("AAPL", (⟨3, 160, 490⟩ : PosInfo))]
      "MSFT" = 0 := by decide
  have h := C9_deadband_skips_instrument gp150 plan2
    [("AAPL", ⟨3, 160, 490⟩)] 1000 [] () [("AAPL", ⟨3, 160, 490⟩)] rfl
    "AAPL" ⟨"Growth", 500, "STK", "SMART"⟩
    (by rw [hflat]; exact List.mem_cons_self _ _)
    (by rw [hcv]; norm_num [rebalance_threshold])
    [msft_order] 550 ()
    (by norm_num [calculate_orders, build_effective_positions, hflat,
      flat_total, calc_orders_loop, hcv, hcvm, rebalance_threshold, pyInt,
      gp150, mk_order_contract, us_exchanges, msft_order,
      show py_strip "STK" = "STK" from by decide])
  exact h msft_order (List.mem_singleton.mpr rfl)

lemma get_market_price_hit (live : Contract → Option ℚ)
    (hashFn : String → ℕ) (jitter now : ℚ) (cache : MCache) (c : Contract)
    (e : CacheEntry) (hc : alist_find cache (contract_key c) = some e)
    (hfresh : now - e.timestamp < market_data_timeout) :
    get_market_price live hashFn jitter now cache c false =
      (e.price, cache) := by
  simp [get_market_price, hc, hfresh]

lemma calc_orders_loop_cache_const (live : Contract → Option ℚ)
    (hashFn : String → ℕ) (jitter now : ℚ) (avail tt : ℚ)
    (eff : List (String × PosInfo)) :
    ∀ (flat : List (String × FlatTarget)) (remaining : ℚ) (cache : MCache)
      (os : List Order) (rem : ℚ) (cache2 : MCache),
      (∀ p ∈ flat, ∃ e : CacheEntry,
        alist_find cache (contract_key (mk_order_contract p.1 p.2)) =
          some e ∧ now - e.timestamp < market_data_timeout) →
      calc_orders_loop
        (fun s c => get_market_price live hashFn jitter now s c false)
        avail tt eff flat remaining cache = .ok (os, rem, cache2) →
      cache2 = cache := by
  intro flat
  induction flat with
  | nil =>
      intro remaining cache os rem cache2 hfr h
      simp only [calc_orders_loop, Except.ok.injEq, Prod.mk.injEq] at h
      exact h.2.2.symm
  | cons p rest ih =>
      obtain ⟨k0, t0⟩ := p
      intro remaining cache os rem cache2 hfr h
      obtain ⟨e, he, hefresh⟩ := hfr (k0, t0) (List.mem_cons_self _ _)
      have hfr2 : ∀ p ∈ rest, ∃ e : CacheEntry,
          alist_find cache (contract_key (mk_order_contract p.1 p.2)) =
            some e ∧ now - e.timestamp < market_data_timeout :=
        fun p hp => hfr p (List.mem_cons_of_mem _ hp)
      simp only [calc_orders_loop] at h
      simp only [get_market_price_hit live hashFn jitter now cache
        (mk_order_contract k0 t0) e he hefresh] at h
      by_cases hdb : |t0.target_value - current_value_of eff k0| <
          t0.target_value * rebalance_threshold
      · rw [if_pos hdb] at h
        exact ih remaining cache os rem cache2 hfr2 h
      · rw [if_neg hdb] at h
        by_cases htt : tt = 0
        · rw [if_pos htt] at h
          exact absurd h (by simp)
        · rw [if_neg htt] at h
          by_cases hmp0 : e.price > 0
          · rw [if_pos hmp0] at h
            by_cases hq0 : pyInt (avail * (t0.target_value / tt) /
                e.price) ≤ 0
            · rw [if_pos hq0] at h
              exact ih remaining cache os rem cache2 hfr2 h
            · rw [if_neg hq0] at h
              by_cases hov : ((pyInt (avail * (t0.target_value / tt) /
                  e.price) : ℚ)) * e.price > remaining
              · rw [if_pos hov] at h
                by_cases hq20 : pyInt (remaining / e.price) ≤ 0
                · rw [if_pos hq20] at h
                  exact ih remaining cache os rem cache2 hfr2 h
                · rw [if_neg hq20] at h
                  cases hrec : calc_orders_loop
                      (fun s c =>
                        get_market_price live hashFn jitter now s c false)
                      avail tt eff rest
                      (remaining - (pyInt (remaining / e.price) : ℚ) *
                        e.price) cache with
                  | error er =>
                      rw [hrec] at h
                      exact absurd h (by simp)
                  | ok trip =>
                      obtain ⟨os1, rem1, c21⟩ := trip
                      rw [hrec] at h
                      simp only [Except.ok.injEq, Prod.mk.injEq] at h
                      rw [← h.2.2]
                      exact ih _ _ os1 rem1 c21 hfr2 hrec
              · rw [if_neg hov] at h
                cases hrec : calc_orders_loop
                    (fun s c =>
                      get_market_price live hashFn jitter now s c false)
                    avail tt eff rest
                    (remaining - (pyInt (avail * (t0.target_value / tt) /
                      e.price) : ℚ) * e.price) cache with
                | error er =>
                    rw [hrec] at h
                    exact absurd h (by simp)
                | ok trip =>
                    obtain ⟨os1, rem1, c21⟩ := trip
                    rw [hrec] at h
                    simp only [Except.ok.injEq, Prod.mk.injEq] at h
                    rw [← h.2.2]
                    exact ih _ _ os1 rem1 c21 hfr2 hrec
          · rw [if_neg hmp0] at h
            exact ih remaining cache os rem cache2 hfr2 h

/-- **C7** (confirmed).  When every instrument of the flattened allocation
plan has an unexpired cache entry, one `_calculate_orders` pass leaves the
market-data cache unchanged, and a second call with the same inputs (on the
state left by the first) returns the identical order list, remaining cash,
and cache. -/
theorem C7_calculate_orders_idempotent (live : Contract → Option ℚ)
    (hashFn : String → ℕ) (jitter now : ℚ) (plan : AllocationPlan)
    (current_positions : List (String × PosInfo)) (available_cash : ℚ)
    (pending : List POrder) (cache : MCache)
    (hfresh : ∀ p ∈ flatten_allocation plan, ∃ e : CacheEntry,
      alist_find cache (contract_key (mk_order_contract p.1 p.2)) = some e ∧
      now - e.timestamp < market_data_timeout)
    (os : List Order) (rem : ℚ) (cache2 : MCache)
    (h : calculate_orders
        (fun s c => get_market_price live hashFn jitter now s c false)
        plan current_positions available_cash pending cache =
        .ok (os, rem, cache2)) :
    cache2 = cache ∧
    calculate_orders
      (fun s c => get_market_price live hashFn jitter now s c false)
      plan current_positions available_cash pending cache2 =
      .ok (os, rem, cache2) := by
  have hc : cache2 = cache := by
    unfold calculate_orders at h
    cases hb : build_effective_positions current_positions pending with
    | error e =>
        rw [hb] at h
        exact absurd h (by simp)
    | ok eff =>
        rw [hb] at h
        exact calc_orders_loop_cache_const live hashFn jitter now
          available_cash (flat_total (flatten_allocation plan)) eff
          (flatten_allocation plan) available_cash cache os rem cache2
          hfresh h
  subst hc
  exact ⟨rfl, h⟩

/-- A cache holding a delayed AAPL quote of 150 taken at time 0. -/
def cache150 : MCache := [("AAPL_STK_SMART", ⟨150, 0, true, false⟩)]

/-- The order produced from `plan1` at a price of 150 with 1000 cash. -/
def order150 : Order :=
  { contract := mk_order_contract "AAPL" ⟨"Growth", 500, "STK", "SMART"⟩,
    action := "BUY", quantity := 6, strategy := "Growth",
    target_value := 500, current_value := 0, price := 150,
    exchange := "SMART" }

/-- Witness for `C7_calculate_orders_idempotent`: with an unexpired cached
AAPL price (age 100 < 300) and a dead live feed, `_calculate_orders` leaves
the cache unchanged and a second identical call returns the same single BUY
order of 6 shares. -/
theorem C7_calculate_orders_idempotent_witness :
    cache150 = cache150 ∧
    calculate_orders
      (fun s c => get_market_price (fun _ => none) (fun _ => 0) 0 100 s c
        false) plan1 [] 1000 [] cache150 =
      .ok ([order150], 100, cache150) := by
  have hkey : contract_key
      (mk_order_contract "AAPL" ⟨"Growth", 500, "STK", "SMART"⟩) =
      "AAPL_STK_SMART" := by decide
  have hfind : alist_find cache150 "AAPL_STK_SMART" =
      some ⟨150, 0, true, false⟩ := by decide
  have hflat1 : flatten_allocation plan1 =
      [("AAPL", (⟨"Growth", 500, "STK", "SMART"⟩ : FlatTarget))] := by
    norm_num [flatten_allocation, plan1, alist_upsert,
      show py_strip "STK" = "STK" from by decide]
  refine C7_calculate_orders_idempotent (fun _ => none) (fun _ => 0) 0 100
    plan1 [] 1000 [] cache150 ?_ [order150] 100 cache150 ?_
  · rw [hflat1]
    intro p hp
    rw [List.mem_singleton.mp hp]
    refine ⟨⟨150, 0, true, false⟩, ?_, by norm_num [market_data_timeout]⟩
    rw [hkey]
    exact hfind
  · norm_num [calculate_orders, build_effective_positions, hflat1,
      flat_total, calc_orders_loop, current_value_of, alist_find,
      rebalance_threshold, pyInt, mk_order_contract, us_exchanges,
      get_market_price, market_data_timeout, hkey, hfind, order150,
      cache150, show py_strip "STK" = "STK" from by decide,
      show contract_key ⟨"AAPL", "STK", "SMART", "USD"⟩ = "AAPL_STK_SMART"
        from by decide]

/-- **C1 counterexample.**  Nothing enforces that a strategy's
`target_percentage` column sums to 1 (the spec itself flags this as an
open question).  For the non-empty table `ptable_half` (one strategy, one
instrument at 50%) and `total_value = 100 ≥ 0`, the instrument-level
target values of `_calculate_target_allocation` sum to 50, not 100. -/
theorem C1_allocation_total_cex :
    ptable_half ≠ [] ∧ (0 : ℚ) ≤ 100 ∧
    planInstrTotal (calculate_target_allocation ptable_half 100) ≠ 100 := by
  refine ⟨by simp [ptable_half], by norm_num, ?_⟩
  rw [ptable_half_total]
  norm_num

/-- **C1, amended** (the original claim fails without a percentage-sum
premise, see `C1_allocation_total_cex`).  For every non-empty portfolio
table in which **each strategy's target percentages sum to 1** and every
`total_value ≥ 0`, the sum over all instruments of the `target_value`
fields of the plan returned by `_calculate_target_allocation` equals the
total value exactly (exact over `ℚ`; "within floating-point tolerance" in
the Python floats), under the code's equal strategy weighting
`1 / len(portfolio)`. -/
theorem C1_allocation_total_amended (ptable : PTable) (v : ℚ)
    (hne : ptable ≠ []) (_hv : 0 ≤ v)
    (hsum : ∀ sp ∈ ptable, strategyPctSum sp.2 = 1) :
    planInstrTotal (calculate_target_allocation ptable v) = v := by
  rw [planInstrTotal_calc]
  have hcongr : ∀ sp ∈ ptable,
      v * (1 / (ptable.length : ℚ)) * strategyPctSum sp.2 =
        v * (1 / (ptable.length : ℚ)) := by
    intro sp hsp
    rw [hsum sp hsp, mul_one]
  rw [List.map_congr_left hcongr]
  have hconst : List.map
      (fun _ => v * (1 / (ptable.length : ℚ))) ptable =
      List.replicate ptable.length (v * (1 / (ptable.length : ℚ))) :=
    List.map_const' ptable _
  rw [hconst, List.sum_replicate, nsmul_eq_mul]
  have hn : (ptable.length : ℚ) ≠ 0 := by
    have := List.length_pos.mpr hne
    exact_mod_cast Nat.pos_iff_ne_zero.mp this
  field_simp

/-- A table with one strategy whose two instruments' percentages sum
to 1. -/
def ptable_full : PTable :=
  [("Growth", [("AAPL", ⟨1/2, "STK", "SMART"⟩),
               ("MSFT", ⟨1/2, "STK", "SMART"⟩)])]

/-- Witness for `C1_allocation_total_amended`: a one-strategy table with
two 50% instruments allocates instrument targets summing to exactly the
total value 100. -/
theorem C1_allocation_total_amended_witness :
    planInstrTotal (calculate_target_allocation ptable_full 100) = 100 :=
  C1_allocation_total_amended ptable_full 100 (by simp [ptable_full])
    (by norm_num)
    (by intro sp hsp
        simp only [ptable_full, List.mem_singleton] at hsp
        rw [hsp]
        norm_num [strategyPctSum])

lemma calc_orders_loop_total {σ : Type} (gp : σ → Contract → ℚ × σ)
    (avail tt : ℚ) (eff : List (String × PosInfo)) (htt : tt ≠ 0) :
    ∀ (flat : List (String × FlatTarget)) (remaining : ℚ) (s : σ),
      ∃ out, calc_orders_loop gp avail tt eff flat remaining s =
        .ok out := by
  intro flat
  induction flat with
  | nil => intro remaining s; exact ⟨_, rfl⟩
  | cons p rest ih =>
      obtain ⟨k0, t0⟩ := p
      intro remaining s
      simp only [calc_orders_loop]
      by_cases hdb : |t0.target_value - current_value_of eff k0| <
          t0.target_value * rebalance_threshold
      · rw [if_pos hdb]
        exact ih remaining s
      · rw [if_neg hdb, if_neg htt]
        by_cases hmp0 : (gp s (mk_order_contract k0 t0)).1 > 0
        · rw [if_pos hmp0]
          by_cases hq0 : pyInt (avail * (t0.target_value / tt) /
              (gp s (mk_order_contract k0 t0)).1) ≤ 0
          · rw [if_pos hq0]
            exact ih remaining _
          · rw [if_neg hq0]
            by_cases hov : ((pyInt (avail * (t0.target_value / tt) /
                (gp s (mk_order_contract k0 t0)).1) : ℚ)) *
                (gp s (mk_order_contract k0 t0)).1 > remaining
            · rw [if_pos hov]
              by_cases hq20 : pyInt (remaining /
                  (gp s (mk_order_contract k0 t0)).1) ≤ 0
              · rw [if_pos hq20]
                exact ih remaining _
              · rw [if_neg hq20]
                obtain ⟨out, hout⟩ := ih (remaining -
                  (pyInt (remaining / (gp s (mk_order_contract k0 t0)).1) :
                    ℚ) * (gp s (mk_order_contract k0 t0)).1)
                  (gp s (mk_order_contract k0 t0)).2
                obtain ⟨os1, rem1, s21⟩ := out
                rw [hout]
                exact ⟨_, rfl⟩
            · rw [if_neg hov]
              obtain ⟨out, hout⟩ := ih (remaining -
                (pyInt (avail * (t0.target_value / tt) /
                  (gp s (mk_order_contract k0 t0)).1) : ℚ) *
                  (gp s (mk_order_contract k0 t0)).1)
                (gp s (mk_order_contract k0 t0)).2
              obtain ⟨os1, rem1, s21⟩ := out
              rw [hout]
              exact ⟨_, rfl⟩
        · rw [if_neg hmp0]
          exact ih remaining _

/-- `_get_current_positions` (lines 363-424): iterate the raw brokerage
position dict; skip entries whose key has fewer than two `_`-separated
parts, whose `contract` key is missing, or whose `position` key is missing
(the market price is fetched *before* the position check, so `gp` runs —
and mutates its state — even for entries later skipped); store
`{position, marketPrice, marketValue}` under the symbol (dict assignment =
upsert).  The per-entry `try/except` means this function never raises. -/
def get_current_positions {σ : Type} (gp : σ → Contract → ℚ × σ) :
    List (String × RawPos) → List (String × PosInfo) → σ →
      List (String × PosInfo) × σ
  | [], acc, s => (acc, s)
  | (key, rp) :: rest, acc, s =>
      if (key.splitOn "_").length ≥ 2 then
        match rp.contract with
        | none => get_current_positions gp rest acc s
        | some c =>
            let gpr := gp s c
            match rp.position with
            | none => get_current_positions gp rest acc gpr.2
            | some q =>
                get_current_positions gp rest
                  (alist_upsert acc ((key.splitOn "_").headD "")
                    ⟨q, gpr.1, q * gpr.1⟩) gpr.2
      else get_current_positions gp rest acc s

/-- Lines 203 / 895: the recognized account-value keys, in probe order. -/
def value_keys : List String :=
  ["NetLiquidation_SGD", "GrossPositionValue_SGD", "NetLiquidation",
   "GrossPositionValue"]

/-- Lines 205-210 / 897-901: the first recognized value key present in the
account info wins (values are modelled as already-parsed numbers; the
`float(...)` string parsing is not modelled). -/
def total_value_lookup (info : List (String × ℚ)) : Option ℚ :=
  value_keys.findSome? (fun k => alist_find info k)

/-- The result dict of `handle_excess_cash_investment` (lines 257-265) /
`rebalance_portfolio` (lines 989-997), reduced to the fields the model
tracks (the textual `status` and the execution-result list are
display-only). -/
structure InvestResult where
  allocation_plan : AllocationPlan
  orders : List Order
  retry_orders : ℕ
  pending_orders : ℕ
  reserved_cash : ℚ
deriving DecidableEq, Repr

/-- A normal (non-raising) return of the orchestration functions: either
the `{'error': ...}` dict (lines 212-214 / 904-906) or the full result
dict. -/
inductive HandleOutcome where
  | errorResult (msg : String)
  | result (r : InvestResult)
deriving DecidableEq, Repr

/-- Lines 240-246: a failed new order re-enters the pending list with
`retry_count = 1`; the error-path execution results carry no `order_id`,
so `result.get('order_id', f"pending_{...}")` takes the synthesized
default (the timestamp suffix is not modelled). -/
def to_pending (o : Order) (rc : ℕ) (oid : String) : POrder :=
  { contract := o.contract, action := o.action, quantity := o.quantity,
    price := some o.price, target_value := some o.target_value,
    strategy := o.strategy, retry_count := rc, order_id := oid }

/-- STEP 3 of `handle_excess_cash_investment` (lines 230-233): new orders
are calculated only when the effective cash is positive. -/
def handle_new_orders {σ : Type} (gp : σ → Contract → ℚ × σ)
    (allocation_plan : AllocationPlan) (cur : List (String × PosInfo))
    (effective_cash : ℚ) (pend : List POrder) (s : σ) :
    Except PyError (List Order × ℚ × σ) :=
  if effective_cash > 0 then
    calculate_orders gp allocation_plan cur effective_cash pend s
  else .ok ([], 0, s)

/-- `handle_excess_cash_investment` (lines 134-265).  STEP 1: the retry
pass (which releases cash for expired BUY orders and raises
`AttributeError` on any non-expired order, see `handle_retry_pass`);
STEP 2: account-value lookup (`{'error': ...}` when no key matches) and
target allocation on `total_value + excess + released`; STEP 3: current
positions, reserved cash, and—when effective cash is positive—new orders;
STEPs 4-5: order sheets/execution are I/O, abstracted by the broker
decision `submitOk`; rejected new orders re-enter the pending list with
`retry_count = 1`, and reserved cash is recomputed over the final pending
list.  `retry_orders` is the number of executed retry attempts, which is 0
in every completed run because the retry loop either skips (expired) or
raises (non-expired). -/
def handle_excess_cash_investment {σ : Type} (gp : σ → Contract → ℚ × σ)
    (submitOk : Order → Bool) (account_info : List (String × ℚ))
    (positions : List (String × RawPos)) (ptable : PTable)
    (pending : List POrder) (excess_cash : ℚ) (s : σ) :
    Except PyError HandleOutcome :=
  match handle_retry_pass pending with
  | .error e => .error e
  | .ok (updated_pending0, released_cash) =>
    let total_available_cash := excess_cash + released_cash
    match total_value_lookup account_info with
    | none => .ok (.errorResult "Portfolio value not found")
    | some total_value =>
        let new_total_value := total_value + total_available_cash
        let allocation_plan :=
          calculate_target_allocation ptable new_total_value
        let cp := get_current_positions gp positions [] s
        let rc := calculate_reserved_cash gp updated_pending0 cp.2
        let effective_cash := total_available_cash - rc.1
        match handle_new_orders gp allocation_plan cp.1 effective_cash
          updated_pending0 rc.2 with
        | .error e => .error e
        | .ok (new_orders, _, s4) =>
            let failed := (new_orders.filter (fun o => !(submitOk o))).map
              (fun o => to_pending o 1 "pending")
            let updated_pending := updated_pending0 ++ failed
            let rc2 := calculate_reserved_cash gp updated_pending s4
            .ok (.result
              { allocation_plan := allocation_plan,
                orders := new_orders,
                retry_orders := 0,
                pending_orders := updated_pending.length,
                reserved_cash := rc2.1 })

/-- `_calculate_orders` takes four required parameters after `self`
(line 540): `allocation_plan`, `current_positions`, `available_cash`,
`pending_orders`; none has a default. -/
def calculate_orders_required_args : ℕ := 4

/-- Line 950 of `rebalance_portfolio` passes only three arguments:
`self._calculate_orders(allocation_plan, current_positions,
effective_cash)`. -/
def rebalance_calculate_orders_call_args : ℕ := 3

/-- The new-order calculation step of `rebalance_portfolio` (line 950):
Python raises `TypeError` at the call site because the required positional
argument `pending_orders` is missing (3 arguments passed, 4 required). -/
def rebalance_new_orders_call : Except PyError (List Order) :=
  if rebalance_calculate_orders_call_args = calculate_orders_required_args
  then .ok [] else .error .typeError

/-- `rebalance_portfolio` (lines 878-997): account-value lookup
(`{'error'}` when absent), the rebalance retry pass, target allocation,
current positions, reserved cash and effective cash
(`max(0, AvailableFunds_USD - reserved)`, line 949) — and then the
three-argument `_calculate_orders` call of line 950, which raises
`TypeError`, so lines 952-997 (order execution and the result dicts) are
unreachable.  The values bound before the call die with the exception. -/
def rebalance_portfolio_model {σ : Type} (gp : σ → Contract → ℚ × σ)
    (account_info : List (String × ℚ)) (positions : List (String × RawPos))
    (ptable : PTable) (pending : List POrder) (s : σ) :
    Except PyError HandleOutcome :=
  match total_value_lookup account_info with
  | none => .ok (.errorResult "Portfolio value not found")
  | some total_value =>
      match rebalance_retry_pass pending with
      | .error e => .error e
      | .ok updated_pending =>
          let _allocation_plan :=
            calculate_target_allocation ptable total_value
          let cp := get_current_positions gp positions [] s
          let rc := calculate_reserved_cash gp updated_pending cp.2
          let _effective_cash :=
            max 0 ((alist_find account_info "AvailableFunds_USD").getD 0 -
              rc.1)
          match rebalance_new_orders_call with
          | .error e => .error e
          | .ok _orders => .error .typeError

/-- Whether an orchestration outcome is the `{'error': ...}` dict (a
raised exception is not). -/
def is_error_result : Except PyError HandleOutcome → Bool
  | .ok (.errorResult _) => true
  | _ => false

/-- **C5** (code bug).  The claim — that `handle_excess_cash_investment`
never raises for expected degraded conditions and that any invocation
whose pending list holds a non-expired order completes its retry phase
and returns a result object — matches the spec and the function's own
docstring ("Returns: dict: Results of investment allocation"), but the
retry phase calls the undefined method `self._generate_order_sheet`
(line 185; only `_generate_order_sheets`, plural, exists), so every such
invocation raises `AttributeError` instead.  Failing input: one pending
BUY order with `retry_count = 0`. -/
theorem C5_retry_phase_raises :
    handle_excess_cash_investment gp150 (fun _ => true)
      [("NetLiquidation_SGD", 100000)] [] ptable_full
      [⟨aapl_smart, "BUY", 10, some 150, some 1500, "Growth", 0, "o1"⟩]
      1000 () = .error .attributeError := by
  rfl

lemma calculate_target_allocation_nil (v : ℚ) :
    calculate_target_allocation [] v = [] := rfl

lemma handle_new_orders_total {σ : Type} (gp : σ → Contract → ℚ × σ)
    (plan : AllocationPlan) (cur : List (String × PosInfo)) (ec : ℚ)
    (s : σ)
    (h : flatten_allocation plan = [] ∨
      flat_total (flatten_allocation plan) ≠ 0) :
    ∃ out, handle_new_orders gp plan cur ec [] s = .ok out := by
  unfold handle_new_orders
  by_cases hec : ec > 0
  · rw [if_pos hec]
    unfold calculate_orders
    have hb : build_effective_positions cur [] = .ok cur := rfl
    rw [hb]
    rcases h with h0 | hnz
    · rw [h0]
      exact ⟨_, rfl⟩
    · exact calc_orders_loop_total gp ec _ cur hnz _ ec s
  · rw [if_neg hec]
    exact ⟨_, rfl⟩

/-- **C6, amended** (the original claim's empty-table half fails, see
`C6_empty_table_no_error_cex`).  For an invocation with no pending orders:
`handle_excess_cash_investment` returns a dict containing the `'error'`
key **iff** the account total value is not found under any of the four
recognized keys; whenever a total value is found the caller gets a normal
result — in particular an **empty portfolio allocation table yields a
normal result** (with an empty allocation plan), not an error.  The
premise `hnz` excludes the unrelated `ZeroDivisionError` of
`_calculate_orders` (a zero total target with some instrument outside its
dead band). -/
theorem C6_error_iff_value_missing {σ : Type} (gp : σ → Contract → ℚ × σ)
    (submitOk : Order → Bool) (account_info : List (String × ℚ))
    (positions : List (String × RawPos)) (ptable : PTable)
    (excess_cash : ℚ) (s : σ)
    (hnz : ∀ v, total_value_lookup account_info = some v →
      ptable = [] ∨
      flat_total (flatten_allocation
        (calculate_target_allocation ptable (v + excess_cash))) ≠ 0) :
    ((∃ m, handle_excess_cash_investment gp submitOk account_info positions
        ptable [] excess_cash s = .ok (.errorResult m)) ↔
      total_value_lookup account_info = none) ∧
    (∀ v, total_value_lookup account_info = some v →
      ∃ r, handle_excess_cash_investment gp submitOk account_info positions
        ptable [] excess_cash s = .ok (.result r)) := by
  have hok : ∀ v, total_value_lookup account_info = some v →
      ∃ r, handle_excess_cash_investment gp submitOk account_info positions
        ptable [] excess_cash s = .ok (.result r) := by
    intro v hv
    have hcond : flatten_allocation
        (calculate_target_allocation ptable (v + excess_cash)) = [] ∨
        flat_total (flatten_allocation
          (calculate_target_allocation ptable (v + excess_cash))) ≠ 0 := by
      rcases hnz v hv with h0 | hno
      · left
        rw [h0]
        rfl
      · right
        exact hno
    unfold handle_excess_cash_investment
    simp only [handle_retry_pass, hv, calculate_reserved_cash, add_zero,
      sub_zero]
    obtain ⟨out, hout⟩ := handle_new_orders_total gp
      (calculate_target_allocation ptable (v + excess_cash))
      (get_current_positions gp positions [] s).1 excess_cash
      (get_current_positions gp positions [] s).2 hcond
    obtain ⟨os, rem, s4⟩ := out
    rw [hout]
    exact ⟨_, rfl⟩
  refine ⟨⟨?_, ?_⟩, hok⟩
  · rintro ⟨m, hm⟩
    cases hlv : total_value_lookup account_info with
    | none => rfl
    | some v =>
        obtain ⟨r, hr⟩ := hok v hlv
        rw [hr] at hm
        exact absurd hm (by simp)
  · intro hnone
    refine ⟨"Portfolio value not found", ?_⟩
    unfold handle_excess_cash_investment
    simp only [handle_retry_pass, hnone]

/-- **C6 counterexample.**  The claim asserts an `{'error'}` return when
the portfolio allocation table is empty.  In the code, an empty table only
makes `_calculate_target_allocation` return an empty plan (lines 334-336);
`handle_excess_cash_investment` then completes normally: with a found
account value of 100000, an empty table, no pending orders and 500 excess
cash, the returned dict has no `'error'` key. -/
theorem C6_empty_table_no_error_cex :
    is_error_result (handle_excess_cash_investment gp150 (fun _ => true)
      [("NetLiquidation_SGD", 100000)] [] ([] : PTable) [] 500 ()) =
      false := by
  norm_num [handle_excess_cash_investment, handle_retry_pass,
    handle_new_orders, calculate_orders, build_effective_positions,
    flatten_allocation, flat_total, calc_orders_loop,
    calculate_target_allocation, get_current_positions,
    calculate_reserved_cash, is_error_result,
    show total_value_lookup [("NetLiquidation_SGD", (100000 : ℚ))] =
      some 100000 from by decide]

/-- Witness for `C6_error_iff_value_missing`, at a concrete account info
holding `NetLiquidation_SGD = 100000`, the two-instrument table
`ptable_full`, and 500 excess cash. -/
theorem C6_error_iff_value_missing_witness :
    ((∃ m, handle_excess_cash_investment gp150 (fun _ => true)
        [("NetLiquidation_SGD", 100000)] [] ptable_full [] 500 () =
        .ok (.errorResult m)) ↔
      total_value_lookup [("NetLiquidation_SGD", 100000)] = none) ∧
    (∀ v, total_value_lookup [("NetLiquidation_SGD", 100000)] = some v →
      ∃ r, handle_excess_cash_investment gp150 (fun _ => true)
        [("NetLiquidation_SGD", 100000)] [] ptable_full [] 500 () =
        .ok (.result r)) := by
  refine C6_error_iff_value_missing gp150 (fun _ => true)
    [("NetLiquidation_SGD", 100000)] [] ptable_full 500 () ?_
  intro v hv
  right
  have hv100 : v = 100000 := by
    have h0 : total_value_lookup [("NetLiquidation_SGD", (100000 : ℚ))] =
        some 100000 := by decide
    rw [h0] at hv
    exact (Option.some.injEq .. ▸ hv).symm
  rw [hv100]
  norm_num [flat_total, flatten_allocation, calculate_target_allocation,
    ptable_full, alist_upsert,
    show py_strip "STK" = "STK" from by decide,
    show ¬ (("AAPL" : String) = "MSFT") from by decide,
    show ¬ (("MSFT" : String) = "AAPL") from by decide]

lemma rebalance_retry_pass_all_expired :
    ∀ pending : List POrder, (∀ o ∈ pending, order_expired o = true) →
      rebalance_retry_pass pending = .ok [] := by
  intro pending
  induction pending with
  | nil => intro _; rfl
  | cons o rest ih =>
      intro h
      simp only [rebalance_retry_pass, h o (List.mem_cons_self _ _),
        if_true]
      exact ih (fun q hq => h q (List.mem_cons_of_mem _ hq))

lemma rebalance_new_orders_call_eq :
    rebalance_new_orders_call = .error .typeError := rfl

/-- **C10** (confirmed).  Every invocation of `rebalance_portfolio` that
finds an account total value and reaches the new-order calculation step
(i.e. whose retry pass completes, e.g. because every pending order is
expired) raises `TypeError`: line 950 calls `_calculate_orders` with three
arguments while the method (line 540) requires four
(`allocation_plan, current_positions, available_cash, pending_orders`). -/
theorem C10_rebalance_raises_type_error {σ : Type}
    (gp : σ → Contract → ℚ × σ) (account_info : List (String × ℚ))
    (positions : List (String × RawPos)) (ptable : PTable)
    (pending : List POrder) (s : σ) (v : ℚ)
    (hv : total_value_lookup account_info = some v)
    (hexp : ∀ o ∈ pending, order_expired o = true) :
    rebalance_portfolio_model gp account_info positions ptable pending s =
      .error .typeError := by
  unfold rebalance_portfolio_model
  simp only [hv, rebalance_retry_pass_all_expired pending hexp,
    rebalance_new_orders_call_eq]

/-- Witness for `C10_rebalance_raises_type_error`: a concrete rebalance
invocation (value key present, one expired pending order) ends in the
modelled `TypeError`. -/
theorem C10_rebalance_raises_type_error_witness :
    rebalance_portfolio_model gp150 [("NetLiquidation_SGD", 100000)] []
      ptable_full [expired_buy] () = .error .typeError :=
  C10_rebalance_raises_type_error gp150 [("NetLiquidation_SGD", 100000)]
    [] ptable_full [expired_buy] () 100000 (by decide) (by decide)
